import Mathlib

/-!
Verification of the procure-ai supplier/market discovery pipeline.

Shallow embedding of the Python sources:
  - `app/utils/rate_limiter.py`   (sliding-window `RateLimiter`, `TokenBucket`)
  - `app/utils/cache.py`          (`InMemoryCache`)
  - `app/services/search_service.py` (`SearchService`)
  - `app/services/llm_service.py` (`LLMService.verify_supplier_data` and the
    fallback record constructor)
  - `app/services/supplier_agent.py` (`SupplierAgent` filtering/ranking)

Conventions: Python `float` time and scores are modelled as `ℚ`; Python dicts
are modelled as association lists; Python `async` functions are modelled as
pure functions (the sources hold a single lock per shared object, so each
operation is atomic); external providers (DuckDuckGo, Groq, Gemini) are
modelled as oracle function parameters returning `Except Unit`.
-/

/-! ## String helpers (ASCII approximations of Python str methods/regexes) -/

/-- Contiguous-sublist test: `needle` occurs inside `hay`
(Python `needle in hay` on strings, on the char lists). -/
def listSub (needle : List Char) : List Char → Bool
  | [] => needle.isEmpty
  | c :: t => needle.isPrefixOf (c :: t) || listSub needle t

/-- Python `pat in hay` for strings. -/
def strContains (hay pat : String) : Bool :=
  listSub pat.toList hay.toList

/-- Python `s.lower()` (ASCII). -/
def pyLower (s : String) : String := String.mk (s.toList.map Char.toLower)

/-- Python `s.strip(chars)` on a char list: drop matching chars at both ends. -/
def stripBoth (p : Char → Bool) (l : List Char) : List Char :=
  ((l.dropWhile p).reverse.dropWhile p).reverse

/-- Python `s.strip()`: whitespace stripped from both ends. -/
def pyStrip (s : String) : String :=
  String.mk (stripBoth Char.isWhitespace s.toList)

/-- Helper for `pySplit`: walk the chars, accumulating the current word. -/
def splitWSAux : List Char → List Char → List String
  | [], acc => if acc.isEmpty then [] else [String.mk acc.reverse]
  | c :: cs, acc =>
    if c.isWhitespace then
      (if acc.isEmpty then [] else [String.mk acc.reverse]) ++ splitWSAux cs []
    else splitWSAux cs (c :: acc)

/-- Python `s.split()` (no argument): split on whitespace runs, no empties. -/
def pySplit (s : String) : List String :=
  splitWSAux s.toList []

/-- Python `" ".join(parts)`. -/
def joinSpace : List String → String
  | [] => ""
  | [s] => s
  | s :: rest => s ++ " " ++ joinSpace rest

/-- Replace each maximal whitespace run by a single space
(Python `re.sub(r"\s+", " ", s)` on the char list). -/
def collapseWS : List Char → List Char
  | [] => []
  | c :: cs =>
    if c.isWhitespace && (match cs with | c' :: _ => c'.isWhitespace | [] => false) then
      collapseWS cs
    else
      (if c.isWhitespace then ' ' else c) :: collapseWS cs

/-! ## Rate limiter: `app/utils/rate_limiter.py`

`RateLimiter.is_allowed` keeps, per key, a deque of admitted timestamps
(oldest first).  On a check at time `now` it first pops timestamps older than
`now - window_seconds` from the left, then rejects if `max_requests` many
remain, else appends `now` and admits. -/

/-- The cleaning loop `while request_times and request_times[0] < window_start:
request_times.popleft()` (the deque is kept in non-decreasing order). -/
def slidingClean (window now : ℚ) (s : List ℚ) : List ℚ :=
  s.dropWhile (fun t => t < now - window)

/-- `RateLimiter.is_allowed` for one key: returns the decision and the
updated per-key deque. -/
def slidingAllowed (maxRequests : ℕ) (window now : ℚ) (s : List ℚ) :
    Bool × List ℚ :=
  let s' := slidingClean window now s
  if maxRequests ≤ s'.length then (false, s')
  else (true, s' ++ [now])

/-- `RateLimiter.get_reset_time` for one key:
`max 0 (oldest_request + window_seconds - now)`, `none` when no timestamps. -/
def getResetTime (window now : ℚ) (s : List ℚ) : Option ℚ :=
  match s with
  | [] => none
  | t :: _ => some (max 0 (t + window - now))

/-- Run a sequence of `is_allowed` checks (the check times, in order) against
one key, returning the decisions and the final deque. -/
def slidingRun (maxRequests : ℕ) (window : ℚ) (s : List ℚ) :
    List ℚ → List Bool × List ℚ
  | [] => ([], s)
  | now :: qs =>
    let r := slidingAllowed maxRequests window now s
    let rest := slidingRun maxRequests window r.2 qs
    (r.1 :: rest.1, rest.2)

/-- The timestamps of the admitted checks of a run. -/
def admittedTimes (maxRequests : ℕ) (window : ℚ) (s : List ℚ) :
    List ℚ → List ℚ
  | [] => []
  | now :: qs =>
    let r := slidingAllowed maxRequests window now s
    (if r.1 then [now] else []) ++ admittedTimes maxRequests window r.2 qs

/-- Membership in the trailing window `[T - window, T]` (the code keeps
timestamps `t` with `¬ (t < now - window)`, i.e. the closed left end). -/
def inWindow (window T t : ℚ) : Bool :=
  decide (T - window ≤ t) && decide (t ≤ T)

/-! ## Token bucket: `TokenBucket` in `app/utils/rate_limiter.py` -/

structure TokenBucket where
  capacity : ℚ
  tokens : ℚ
  refill_rate : ℚ
  last_refill : ℚ
  deriving DecidableEq

/-- `TokenBucket.consume`: replenish from elapsed time (capped at capacity),
then deduct if enough tokens are available. -/
def TokenBucket.consume (b : TokenBucket) (now : ℚ) (n : ℚ) :
    Bool × TokenBucket :=
  let replenished := min b.capacity (b.tokens + (now - b.last_refill) * b.refill_rate)
  if n ≤ replenished then
    (true, { b with tokens := replenished - n, last_refill := now })
  else
    (false, { b with tokens := replenished, last_refill := now })

/-- `TokenBucket.get_wait_time`: `0` when enough tokens are present, else
`(n - tokens) / refill_rate`. -/
def TokenBucket.get_wait_time (b : TokenBucket) (n : ℚ) : ℚ :=
  if n ≤ b.tokens then 0 else (n - b.tokens) / b.refill_rate

/-! ## TTL cache: `InMemoryCache` in `app/utils/cache.py`

The backing `dict` is modelled as an association list with at most one entry
per key (`List.lookup` / `List.eraseP` give first-match semantics, matching a
dict's unique keys). -/

structure CacheEntry (α : Type) where
  value : α
  expires : ℚ
  created : ℚ

/-- `InMemoryCache.get`: return the value while `entry['expires'] > now`;
an expired entry is deleted and the call returns `None`. Result is the
returned value and the cache after the call. -/
def cacheGet {α : Type} (now : ℚ) (c : List (String × CacheEntry α))
    (key : String) : Option α × List (String × CacheEntry α) :=
  match c.lookup key with
  | some e =>
    if now < e.expires then (some e.value, c)
    else (none, c.eraseP (fun p => p.1 == key))
  | none => (none, c)

/-- `InMemoryCache.set`: overwrite the entry wholesale with
`expires = now + ttl`, `created = now`. -/
def cacheSet {α : Type} (now ttl : ℚ) (key : String) (v : α)
    (c : List (String × CacheEntry α)) : List (String × CacheEntry α) :=
  (key, ⟨v, now + ttl, now⟩) :: c.eraseP (fun p => p.1 == key)

/-- `InMemoryCache.cleanup_expired` (the periodic sweep): drop every entry
with `expires <= now`. -/
def cleanupExpired {α : Type} (now : ℚ) (c : List (String × CacheEntry α)) :
    List (String × CacheEntry α) :=
  c.filter (fun p => decide (now < p.2.expires))

/-! ## Search service: `app/services/search_service.py`

The DuckDuckGo provider (`self.ddgs.text`) is an oracle parameter
`provider : String → Except Unit (List RawHit)`; an `Except.error` models any
exception the provider raises. -/

/-- One raw DuckDuckGo result dict (`title` / `href` / `body`). -/
structure RawHit where
  title : String
  href : String
  body : String
  deriving DecidableEq

/-- `SearchResult` (`app/models/responses.py`). -/
structure SearchResult where
  title : String
  url : String
  snippet : String
  source : String
  relevance_score : ℚ
  deriving DecidableEq

/-- `SearchService._clean_query`: strip, drop chars outside `[\w\s-]`,
collapse whitespace runs, lowercase (ASCII approximation of the regexes). -/
def cleanQuery (q : String) : String :=
  let kept := (pyStrip q).toList.filter
    (fun ch => ch.isAlphanum || ch = '_' || ch.isWhitespace || ch = '-')
  pyLower (String.mk (collapseWS kept))

/-- `SearchService._extract_domain`: `urlparse(url).netloc`, modelled as the
text between `"://"` and the next `'/'` (empty when no scheme separator). -/
def extractDomain (url : String) : String :=
  let cs := url.toList
  let rec after : List Char → Option (List Char)
    | ':' :: '/' :: '/' :: rest => some rest
    | _ :: rest => after rest
    | [] => none
  match after cs with
  | some rest => String.mk (rest.takeWhile (fun c => c ≠ '/'))
  | none => ""

/-- `SearchService._execute_search`: call the provider; any provider failure
is caught and yields `[]`; each raw hit becomes a `SearchResult` with default
`relevance_score = 0.5`. -/
def executeSearch (provider : String → Except Unit (List RawHit))
    (query : String) : List SearchResult :=
  match provider query with
  | .error _ => []
  | .ok hits =>
    hits.map (fun r =>
      { title := r.title, url := r.href, snippet := r.body,
        source := extractDomain r.href, relevance_score := 1/2 })

/-- URL normalization in `_deduplicate_results`: `result.url.lower().strip('/')`. -/
def normalizeUrl (u : String) : String :=
  String.mk (stripBoth (fun c => c = '/') (pyLower u).toList)

/-- Title normalization in `_deduplicate_results`: `result.title.lower().strip()`. -/
def normalizeTitle (t : String) : String :=
  pyStrip (pyLower t)

/-- The loop of `SearchService._deduplicate_results` with its two `seen` sets
(modelled as lists). A result is kept iff neither its normalized URL nor its
normalized title was seen before. -/
def dedupAux : List SearchResult → List String → List String → List SearchResult
  | [], _, _ => []
  | r :: rs, seenUrls, seenTitles =>
    let u := normalizeUrl r.url
    let t := normalizeTitle r.title
    if u ∈ seenUrls ∨ t ∈ seenTitles then dedupAux rs seenUrls seenTitles
    else r :: dedupAux rs (u :: seenUrls) (t :: seenTitles)

/-- `SearchService._deduplicate_results`. -/
def deduplicateResults (rs : List SearchResult) : List SearchResult :=
  dedupAux rs [] []

/-- Keyword list in `_filter_supplier_results`. -/
def supplierKeywords : List String :=
  ["supplier", "manufacturer", "vendor", "distributor", "company",
   "corporation", "inc", "llc", "ltd", "wholesale", "industrial",
   "factory", "producer", "exporter", "importer"]

/-- Spam indicator list in `_is_spam_or_irrelevant`. -/
def spamIndicators : List String :=
  ["download", "free", "click here", "sign up", "register now",
   "limited time", "special offer", "discount", "sale",
   "wikipedia", "amazon.com", "ebay.com", "social media"]

/-- `SearchService._is_spam_or_irrelevant`. -/
def isSpamOrIrrelevant (r : SearchResult) : Bool :=
  let content := pyLower (r.title ++ " " ++ r.snippet)
  spamIndicators.any (fun k => strContains content k)

/-- The per-result relevance boost of `_filter_supplier_results`. -/
def boostSupplier (r : SearchResult) : SearchResult :=
  let content := pyLower (r.title ++ " " ++ r.snippet)
  if supplierKeywords.any (fun k => strContains content k) then
    { r with relevance_score := min (r.relevance_score + 1/5) 1 }
  else r

/-- `SearchService._filter_supplier_results`: boost supplier-flavoured
results, drop spam. -/
def filterSupplierResults (rs : List SearchResult) : List SearchResult :=
  (rs.map boostSupplier).filter (fun r => ¬ isSpamOrIrrelevant r)

/-- Stable descending insertion: place `a` before the first element whose key
is `≤` its own. -/
def insertByDesc {α : Type} (key : α → ℚ) (a : α) : List α → List α
  | [] => [a]
  | b :: bs => if key b ≤ key a then a :: b :: bs else b :: insertByDesc key a bs

/-- Stable descending sort, the semantics of Python
`sorted(results, key=..., reverse=True)`. -/
def sortByDesc {α : Type} (key : α → ℚ) : List α → List α
  | [] => []
  | a :: rest => insertByDesc key a (sortByDesc key rest)

/-- The token-overlap boost of `_rank_results` for one result. Division is
`ℚ` division (the Python code divides by `len(query_terms)`; with zero query
terms it would raise, caught by the caller's blanket handler). -/
def rankBoost (queryTerms : Finset String) (r : SearchResult) : SearchResult :=
  let titleTerms := (pySplit (cleanQuery r.title)).toFinset
  let snippetTerms := (pySplit (cleanQuery r.snippet)).toFinset
  let titleOverlap : ℚ := ((queryTerms ∩ titleTerms).card : ℚ)
  let snippetOverlap : ℚ := ((queryTerms ∩ snippetTerms).card : ℚ)
  let boost := (titleOverlap * (3/10) + snippetOverlap * (1/10)) / (queryTerms.card : ℚ)
  { r with relevance_score := min (r.relevance_score + boost) 1 }

/-- `SearchService._rank_results`: boost by query-term overlap, then sort
descending by `relevance_score` (stable). -/
def rankResults (rs : List SearchResult) (originalQuery : String) : List SearchResult :=
  let queryTerms := (pySplit (cleanQuery originalQuery)).toFinset
  sortByDesc (fun r => r.relevance_score) (rs.map (rankBoost queryTerms))

/-- The five query variants built by `search_suppliers` (the location suffix
is appended only when `location` is truthy). -/
def supplierQueries (query : String) (location : Option String) : List String :=
  let baseQuery := cleanQuery query
  let locationFilter := match location with
    | some l => if l = "" then "" else " " ++ l
    | none => ""
  [baseQuery ++ " suppliers manufacturers" ++ locationFilter,
   baseQuery ++ " vendors distributors" ++ locationFilter,
   "certified " ++ baseQuery ++ " companies" ++ locationFilter,
   baseQuery ++ " industry directory" ++ locationFilter,
   "wholesale " ++ baseQuery ++ " suppliers" ++ locationFilter]

/-- `SearchService.search_suppliers`: sequential fan-out over the five query
variants (a failing variant contributes `[]`, the loop continues), then
dedup, supplier filtering, ranking, truncation. -/
def searchSuppliers (provider : String → Except Unit (List RawHit))
    (query : String) (location : Option String) (maxResults : ℕ) :
    List SearchResult :=
  let allResults := (supplierQueries query location).flatMap (executeSearch provider)
  let deduplicated := deduplicateResults allResults
  let filtered := filterSupplierResults deduplicated
  (rankResults filtered query).take maxResults

/-! ## Data model: `app/models/responses.py`, `app/models/requests.py` -/

/-- `VerificationStatus` enum. -/
inductive VerificationStatus where
  | verified
  | unverified
  | pending
  | failed
  deriving DecidableEq

/-- `SupplierInfo` (pydantic model). `contact_info` is an association list. -/
structure SupplierInfo where
  name : String
  website : Option String
  location : String
  confidence_score : ℚ
  certifications : List String
  contact_info : List (String × String)
  verification_status : VerificationStatus
  specialties : List String
  company_size : Option String
  rating : Option ℚ
  description : Option String
  deriving DecidableEq

/-- `SupplierDiscoveryRequest` (pydantic model). -/
structure SupplierDiscoveryRequest where
  product : String
  location : Option String
  requirements : List String
  certifications : List String
  min_rating : Option ℚ
  max_results : ℕ
  deriving DecidableEq

/-- One candidate dict built by `SupplierAgent._extract_supplier_info`. -/
structure Candidate where
  name : String
  website : String
  location : String
  description : String
  source_title : String
  source_snippet : String
  domain : String
  search_relevance : ℚ
  deriving DecidableEq

/-! ## LLM service: `app/services/llm_service.py`

The provider chain of `verify_supplier_data` (Groq first, Gemini on failure,
JSON extraction, enum conversion) is modelled by two oracles
`Candidate → Except Unit VerifiedData`; an `Except.error` models any raised
exception along that path (transport error, quota, invalid enum string). A
provider that answers malformed-but-parseable JSON is an `Except.ok` with
`none` fields, which `createSupplierInfo` fills with the documented defaults. -/

/-- The fields `_parse_supplier_response` may extract from the provider's
JSON (each `none` when missing from the payload). -/
structure VerifiedData where
  name : Option String
  location : Option String
  confidence_score : Option ℚ
  certifications : Option (List String)
  specialties : Option (List String)
  company_size : Option String
  verification_status : Option VerificationStatus
  contact_info : Option (List (String × String))
  rating : Option ℚ
  description : Option String
  deriving DecidableEq

/-- `LLMService._create_supplier_info`: verified fields with defaults
(`confidence 0.5`, empty certifications, status `unverified`, `rating` null),
`website` always from the original candidate. -/
def createSupplierInfo (d : VerifiedData) (c : Candidate) : SupplierInfo :=
  { name := d.name.getD c.name,
    website := some c.website,
    location := d.location.getD c.location,
    confidence_score := d.confidence_score.getD (1/2),
    certifications := d.certifications.getD [],
    contact_info := d.contact_info.getD [],
    verification_status := d.verification_status.getD .unverified,
    specialties := d.specialties.getD [],
    company_size := d.company_size,
    rating := d.rating,
    description := d.description }

/-- `LLMService._create_fallback_supplier_info`: the deterministic
low-confidence record used when verification fails. -/
def createFallbackSupplierInfo (c : Candidate) : SupplierInfo :=
  { name := c.name,
    website := some c.website,
    location := c.location,
    confidence_score := 3/10,
    certifications := [],
    contact_info := [],
    verification_status := .unverified,
    specialties := [],
    company_size := none,
    rating := none,
    description := none }

/-- The `try primary / except: secondary` chain inside
`verify_supplier_data`. -/
def tryProviders {α β : Type} (p1 p2 : α → Except Unit β) (a : α) :
    Except Unit β :=
  match p1 a with
  | .ok b => .ok b
  | .error _ => p2 a

/-- `LLMService.verify_supplier_data`: provider chain, then
`_create_supplier_info`; the enclosing `except` turns any failure into the
fallback record. Total — it never raises. -/
def verifySupplierData (p1 p2 : Candidate → Except Unit VerifiedData)
    (c : Candidate) : SupplierInfo :=
  match tryProviders p1 p2 c with
  | .ok d => createSupplierInfo d c
  | .error _ => createFallbackSupplierInfo c

/-! ## Supplier agent: `app/services/supplier_agent.py` -/

/-- The batch split of `_verify_suppliers`
(`for i in range(0, len(candidates), 5): batch = candidates[i:i+5]`). -/
def batchesOf5 {α : Type} : List α → List (List α)
  | [] => []
  | x :: xs => (x :: xs.take 4) :: batchesOf5 (xs.drop 4)
  termination_by l => l.length
  decreasing_by simp [List.length_drop]; omega

/-- `SupplierAgent._verify_suppliers`: per batch, all verification calls are
gathered (`verifySupplierData` is total, so every gathered outcome is a
`SupplierInfo` and is appended in order). -/
def verifySuppliers (p1 p2 : Candidate → Except Unit VerifiedData)
    (candidates : List Candidate) : List SupplierInfo :=
  (batchesOf5 candidates).flatMap
    (fun batch => batch.map (verifySupplierData p1 p2))

/-- The `state_abbrev` table of `_location_matches`. -/
def stateAbbrev : List (String × String) :=
  [("california", "ca"), ("texas", "tx"), ("new york", "ny"),
   ("florida", "fl"), ("illinois", "il"), ("pennsylvania", "pa")]

/-- `SupplierAgent._location_matches`: case-folded substring containment,
else the state-abbreviation table in either direction. -/
def locationMatches (supplierLocation requestedLocation : String) : Bool :=
  let supplierLower := pyLower supplierLocation
  let requestedLower := pyLower requestedLocation
  if strContains supplierLower requestedLower then true
  else
    stateAbbrev.any (fun p =>
      (strContains requestedLower p.1 && strContains supplierLower p.2) ||
      (strContains requestedLower p.2 && strContains supplierLower p.1))

/-- `SupplierAgent._meets_requirements`: the supplier's searchable text must
contain at least 50% of the requirement phrases (a `None` description prints
as `"None"` inside the f-string, as in the source). -/
def meetsRequirements (s : SupplierInfo) (requirements : List String) : Bool :=
  let searchableText := pyLower
    ((match s.description with | some d => d | none => "None") ++ " " ++
      joinSpace s.specialties ++ " " ++
      joinSpace s.certifications)
  let matchCount := (requirements.filter
    (fun req => strContains searchableText (pyLower req))).length
  decide ((requirements.length : ℚ) * (1/2) ≤ (matchCount : ℚ))

/-- `SupplierAgent._calculate_specialty_relevance`: word-set overlap between
the specialties text and the product, normalized by the product word count. -/
def specialtyRelevance (specialties : List String) (product : String) : ℚ :=
  let productWords := (pySplit (pyLower product)).toFinset
  let specialtyWords := (pySplit (pyLower (joinSpace specialties))).toFinset
  if productWords.card = 0 then 0
  else ((productWords ∩ specialtyWords).card : ℚ) / (productWords.card : ℚ)

/-- Location clause of `_apply_filters`: drop only when both the requested
and the supplier location are truthy (non-empty) and they do not match. -/
def locationFilterOk (req : SupplierDiscoveryRequest) (s : SupplierInfo) : Bool :=
  match req.location with
  | some rl => if rl ≠ "" && s.location ≠ "" then locationMatches s.location rl else true
  | none => true

/-- Rating clause of `_apply_filters` (both values truthy, i.e. non-zero). -/
def ratingFilterOk (req : SupplierDiscoveryRequest) (s : SupplierInfo) : Bool :=
  match req.min_rating, s.rating with
  | some m, some r => if m ≠ 0 && r ≠ 0 then decide (¬ (r < m)) else true
  | _, _ => true

/-- Certification clause of `_apply_filters`: at least one requested
certification appears (case-folded equality) among the supplier's. -/
def certFilterOk (req : SupplierDiscoveryRequest) (s : SupplierInfo) : Bool :=
  if req.certifications ≠ [] then
    req.certifications.any
      (fun cert => (s.certifications.map pyLower).contains (pyLower cert))
  else true

/-- Requirements clause of `_apply_filters`. -/
def requirementsFilterOk (req : SupplierDiscoveryRequest) (s : SupplierInfo) : Bool :=
  if req.requirements ≠ [] then meetsRequirements s req.requirements else true

/-- One supplier passes `_apply_filters` iff no clause `continue`s past it. -/
def passesFilters (req : SupplierDiscoveryRequest) (s : SupplierInfo) : Bool :=
  locationFilterOk req s && ratingFilterOk req s &&
    certFilterOk req s && requirementsFilterOk req s

/-- `SupplierAgent._apply_filters`. -/
def applyFilters (req : SupplierDiscoveryRequest) (suppliers : List SupplierInfo) :
    List SupplierInfo :=
  suppliers.filter (passesFilters req)

/-- The verification-status weight table of `calculate_score`. -/
def verificationWeight : VerificationStatus → ℚ
  | .verified => 1
  | .unverified => 1/2
  | .pending => 3/10
  | .failed => 0

/-- The location-bonus condition of `calculate_score`
(`if request.location and supplier.location: if self._location_matches(...)`). -/
def locationBonusOk (req : SupplierDiscoveryRequest) (s : SupplierInfo) : Bool :=
  match req.location with
  | some rl => rl ≠ "" && s.location ≠ "" && locationMatches s.location rl
  | none => false

/-- `calculate_score` inside `SupplierAgent._rank_suppliers`, written as the
sum of its conditional increments, capped at 1. Skipped falsy fields
(`rating` 0/None, empty lists) contribute 0, exactly as in the source. -/
def calculateScore (req : SupplierDiscoveryRequest) (s : SupplierInfo) : ℚ :=
  min
    (s.confidence_score * (2/5)
      + verificationWeight s.verification_status * (1/5)
      + (match s.rating with
          | some r => if r ≠ 0 then (r / 5) * (3/20) else 0
          | none => 0)
      + (if s.certifications ≠ [] then
          min ((s.certifications.length : ℚ) / 5) 1 * (1/10) else 0)
      + (if locationBonusOk req s then 1/10 else 0)
      + (if s.specialties ≠ [] then
          specialtyRelevance s.specialties req.product * (1/20) else 0))
    1

/-- `SupplierAgent._rank_suppliers`: overwrite every `confidence_score` with
the recomputed score, then sort descending by it (stable). -/
def rankSuppliers (req : SupplierDiscoveryRequest) (suppliers : List SupplierInfo) :
    List SupplierInfo :=
  sortByDesc (fun s => s.confidence_score)
    (suppliers.map (fun s => { s with confidence_score := calculateScore req s }))

/-- Stages 3–5 of `SupplierAgent.discover_suppliers` starting from the
extracted candidates: verify/enrich, filter, rank, truncate to
`max_results`. -/
def discoverFromCandidates (p1 p2 : Candidate → Except Unit VerifiedData)
    (req : SupplierDiscoveryRequest) (candidates : List Candidate) :
    List SupplierInfo :=
  (rankSuppliers req (applyFilters req (verifySuppliers p1 p2 candidates))).take
    req.max_results

/-- Modelled from the spec (§4.6): the scoring formula as the specification
words it — confidence × 0.40 + status weight × 0.20 + (rating/5) × 0.15 (0 if
absent) + min(cert count/5, 1) × 0.10 + location-match bonus 0.10 +
specialty-token-overlap × 0.05, clamped to [0, 1]. -/
def specScore (req : SupplierDiscoveryRequest) (s : SupplierInfo) : ℚ :=
  let raw :=
    s.confidence_score * (0.40 : ℚ)
      + verificationWeight s.verification_status * (0.20 : ℚ)
      + (match s.rating with | some r => (r / 5) * (0.15 : ℚ) | none => 0)
      + min ((s.certifications.length : ℚ) / 5) 1 * (0.10 : ℚ)
      + (match req.location with
          | some rl => if locationMatches s.location rl then (0.10 : ℚ) else 0
          | none => 0)
      + specialtyRelevance s.specialties req.product * (0.05 : ℚ)
  min (max raw 0) 1

/-! ## Concrete fixtures used by witnesses and counterexamples -/

/-- A candidate whose snippet yields no location ("Location not specified"). -/
def candAcme : Candidate :=
  { name := "Acme Steel", website := "https://acme.example",
    location := "Location not specified", description := "steel parts",
    source_title := "Acme Steel", source_snippet := "steel parts",
    domain := "acme.example", search_relevance := 1/2 }

/-- A discovery request with no filter fields set. -/
def reqPlain : SupplierDiscoveryRequest :=
  { product := "industrial steel", location := none, requirements := [],
    certifications := [], min_rating := none, max_results := 10 }

/-- A discovery request asking for location "Texas" and nothing else. -/
def reqTexas : SupplierDiscoveryRequest :=
  { product := "industrial steel", location := some "Texas", requirements := [],
    certifications := [], min_rating := none, max_results := 10 }

/-- A supplier carrying the sentinel location "Location not specified". -/
def supplierSentinel : SupplierInfo :=
  { name := "Acme Steel", website := none,
    location := "Location not specified", confidence_score := 9/10,
    certifications := [], contact_info := [],
    verification_status := .verified, specialties := [], company_size := none,
    rating := none, description := none }

/-- An enrichment oracle that always raises. -/
def enrichFail : Candidate → Except Unit VerifiedData := fun _ => .error ()

/-- Five candidates named B1–B5 for the batch-isolation witness. -/
def batchCands : List Candidate :=
  ["B1", "B2", "B3", "B4", "B5"].map (fun n =>
    { name := n, website := "https://b.example", location := "Texas",
      description := "d", source_title := n, source_snippet := "d",
      domain := "b.example", search_relevance := 1/2 })

/-- An enrichment payload with every field present. -/
def payloadFull : VerifiedData :=
  { name := some "B Grown", location := some "Texas",
    confidence_score := some (4/5), certifications := some ["ISO 9001"],
    specialties := some ["steel"], company_size := some "Large",
    verification_status := some .verified, contact_info := some [],
    rating := some 4, description := some "desc" }

/-- An enrichment oracle that raises exactly on candidate "B3". -/
def enrichFailB3 : Candidate → Except Unit VerifiedData := fun c =>
  if c.name = "B3" then .error () else .ok payloadFull

/-! ## C8: token bucket -/

/-- C8: `consume(n)` first replenishes `tokens` to
`min(capacity, tokens + elapsed * refill_rate)`, then admits (deducting `n`)
iff the replenished count is at least `n`, and otherwise rejects; on
rejection the reported wait time equals `(n - tokens) / refill_rate` with
`tokens` the replenished count left in the bucket. -/
theorem tokenBucket_consume_spec (b : TokenBucket) (now n : ℚ) :
    ((b.consume now n).1 =
      decide (n ≤ min b.capacity (b.tokens + (now - b.last_refill) * b.refill_rate)))
    ∧ (b.consume now n).2.tokens =
        (if n ≤ min b.capacity (b.tokens + (now - b.last_refill) * b.refill_rate) then
          min b.capacity (b.tokens + (now - b.last_refill) * b.refill_rate) - n
        else min b.capacity (b.tokens + (now - b.last_refill) * b.refill_rate))
    ∧ (b.consume now n).2.last_refill = now
    ∧ ((b.consume now n).1 = false →
        TokenBucket.get_wait_time (b.consume now n).2 n =
          (n - min b.capacity (b.tokens + (now - b.last_refill) * b.refill_rate)) /
            b.refill_rate) := by
  by_cases h : n ≤ min b.capacity (b.tokens + (now - b.last_refill) * b.refill_rate)
  · simp [TokenBucket.consume, TokenBucket.get_wait_time, h]
  · simp [TokenBucket.consume, TokenBucket.get_wait_time, h]

/-- Witness for C8 at a concrete rejecting state: capacity 10, empty bucket
refilling at 1 token/s for 2 s cannot serve 5 tokens, and the reported wait
is 3 s. -/
theorem tokenBucket_consume_spec_witness :
    (TokenBucket.consume ⟨10, 0, 1, 0⟩ 2 5).1 = false ∧
    TokenBucket.get_wait_time (TokenBucket.consume ⟨10, 0, 1, 0⟩ 2 5).2 5 = 3 := by
  have h := tokenBucket_consume_spec ⟨10, 0, 1, 0⟩ 2 5
  have h1 : (TokenBucket.consume ⟨10, 0, 1, 0⟩ 2 5).1 = false := by
    rw [h.1]; norm_num
  refine ⟨h1, ?_⟩
  have h2 := h.2.2.2 h1
  rw [h2]; norm_num

/-! ## C10: a rejected sliding-window check consumes no slot -/

/-- `slidingAllowed` written as a single conditional (the `let` unfolded). -/
theorem slidingAllowed_eq (maxRequests : ℕ) (window now : ℚ) (s : List ℚ) :
    slidingAllowed maxRequests window now s =
      if maxRequests ≤ (slidingClean window now s).length then
        (false, slidingClean window now s)
      else (true, slidingClean window now s ++ [now]) := rfl

/-- C10: when `is_allowed` rejects, the per-key deque is left exactly as the
cleaning step produced it (old timestamps removed, nothing appended), and any
later check at a time where fewer than `max_requests` timestamps survive
cleaning is admitted. -/
theorem slidingWindow_reject_frame (maxRequests : ℕ) (window now : ℚ) (s : List ℚ) :
    ((slidingAllowed maxRequests window now s).1 = false →
      (slidingAllowed maxRequests window now s).2 = slidingClean window now s)
    ∧ (∀ now',
        (slidingClean window now' (slidingAllowed maxRequests window now s).2).length
            < maxRequests →
        (slidingAllowed maxRequests window now'
          (slidingAllowed maxRequests window now s).2).1 = true) := by
  constructor
  · intro hrej
    by_cases h : maxRequests ≤ (slidingClean window now s).length
    · rw [slidingAllowed_eq, if_pos h]
    · rw [slidingAllowed_eq maxRequests window now s, if_neg h] at hrej
      simp at hrej
  · intro now' hlen
    rw [slidingAllowed_eq maxRequests window now'
      (slidingAllowed maxRequests window now s).2, if_neg (by omega)]

/-- Witness for C10: with `max_requests = 1`, `window = 60` and one admitted
timestamp at 0, a check at time 0 is rejected leaving the deque `[0]`, and a
check at time 61 (after the old timestamp ages out) is admitted. -/
theorem slidingWindow_reject_frame_witness :
    (slidingAllowed 1 60 0 [0]).1 = false ∧
    (slidingAllowed 1 60 0 [0]).2 = [0] ∧
    (slidingAllowed 1 60 61 (slidingAllowed 1 60 0 [0]).2).1 = true := by
  have h := slidingWindow_reject_frame 1 60 0 [0]
  have hclean : slidingClean 60 0 [0] = [0] := by
    norm_num [slidingClean, List.dropWhile]
  have hrej : (slidingAllowed 1 60 0 [0]).1 = false := by
    simp [slidingAllowed, hclean]
  have hstate : (slidingAllowed 1 60 0 [0]).2 = [0] := by
    rw [h.1 hrej, hclean]
  refine ⟨hrej, hstate, h.2 61 ?_⟩
  rw [hstate]
  norm_num [slidingClean, List.dropWhile]

/-! ## C4: lazy cache expiry -/

/-- C4: a `get` on an entry whose expiry time has passed returns a miss (the
same `none` observable as an absent key) and removes the entry; a value is
returned only when the key holds an entry that is still unexpired, so no
value survives past its ttl, with or without the periodic sweep. -/
theorem cache_lazy_expiry {α : Type} (now : ℚ) (c : List (String × CacheEntry α))
    (key : String) :
    (∀ e, c.lookup key = some e → e.expires ≤ now →
      cacheGet now c key = (none, c.eraseP (fun p => p.1 == key)))
    ∧ (c.lookup key = none → cacheGet now c key = (none, c))
    ∧ (∀ v, (cacheGet now c key).1 = some v →
        ∃ e, c.lookup key = some e ∧ now < e.expires ∧ e.value = v)
    ∧ (∀ ts ttl v, ts + ttl ≤ now →
        (cacheGet now (cacheSet ts ttl key v c) key).1 = none) := by
  refine ⟨?_, ?_, ?_, ?_⟩
  · intro e he hexp
    simp [cacheGet, he, not_lt.mpr hexp]
  · intro he
    simp [cacheGet, he]
  · intro v hv
    unfold cacheGet at hv
    cases he : c.lookup key with
    | none => rw [he] at hv; simp at hv
    | some e =>
      rw [he] at hv
      by_cases hexp : now < e.expires
      · simp [hexp] at hv
        exact ⟨e, rfl, hexp, hv⟩
      · simp [hexp] at hv
  · intro ts ttl v hts
    have hl : (cacheSet ts ttl key v c).lookup key = some ⟨v, ts + ttl, ts⟩ := by
      simp [cacheSet, List.lookup]
    simp [cacheGet, hl, not_lt.mpr hts]

/-- Witness for C4: an entry that expired at time 5 is a miss at time 5 and
is removed; a fresh entry set at time 0 with ttl 10 is a miss at time 10. -/
theorem cache_lazy_expiry_witness :
    cacheGet 5 [("k", (⟨7, 5, 0⟩ : CacheEntry ℕ))] "k" = (none, []) ∧
    (cacheGet 10 (cacheSet 0 10 "k" (7 : ℕ) []) "k").1 = none := by
  have h := cache_lazy_expiry (α := ℕ) 5 [("k", ⟨7, 5, 0⟩)] "k"
  have h10 := cache_lazy_expiry (α := ℕ) 10 ([] : List (String × CacheEntry ℕ)) "k"
  constructor
  · have he : ([("k", (⟨7, 5, 0⟩ : CacheEntry ℕ))]).lookup "k" = some ⟨7, 5, 0⟩ := by
      simp [List.lookup]
    have := h.1 ⟨7, 5, 0⟩ he (by norm_num)
    simpa [List.eraseP] using this
  · exact h10.2.2.2 0 10 7 (by norm_num)

/-! ## C6: dedup idempotence -/

/-- The dedup loop is idempotent for any starting `seen` sets. -/
theorem dedupAux_idem (rs : List SearchResult) :
    ∀ seenUrls seenTitles,
      dedupAux (dedupAux rs seenUrls seenTitles) seenUrls seenTitles =
        dedupAux rs seenUrls seenTitles := by
  induction rs with
  | nil => intro su st; rfl
  | cons r rs ih =>
    intro su st
    by_cases h : normalizeUrl r.url ∈ su ∨ normalizeTitle r.title ∈ st
    · rw [dedupAux, if_pos h, ih]
    · rw [dedupAux, if_neg h, dedupAux, if_neg h, ih]

/-- C6: deduplication of search results is idempotent — applying
`_deduplicate_results` twice returns exactly the list (hence the same
distinct (url, title) pairs) that applying it once returns. -/
theorem dedup_idempotent (rs : List SearchResult) :
    deduplicateResults (deduplicateResults rs) = deduplicateResults rs :=
  dedupAux_idem rs [] []

/-! ## C2: batch isolation in the verification orchestrator -/

/-- Concatenating the batches of 5 restores the list, mapped. -/
theorem batchesOf5_flatMap_map {α β : Type} (f : α → β) (l : List α) :
    (batchesOf5 l).flatMap (fun b => b.map f) = l.map f := by
  induction l using batchesOf5.induct with
  | case1 => rw [batchesOf5]; rfl
  | case2 x xs ih =>
    rw [batchesOf5, List.flatMap_cons, ih, ← List.map_append,
      List.cons_append, List.take_append_drop]

/-- C2: the orchestrator returns exactly one `SupplierInfo` per input
candidate, in order — `verify_supplier_data` is total (it never lets an
enrichment exception escape), and a candidate on which both providers raise
becomes the fallback record with `verification_status = unverified`. -/
theorem verify_batch_isolation (p1 p2 : Candidate → Except Unit VerifiedData)
    (candidates : List Candidate) :
    verifySuppliers p1 p2 candidates = candidates.map (verifySupplierData p1 p2)
    ∧ (verifySuppliers p1 p2 candidates).length = candidates.length
    ∧ (∀ c, p1 c = .error () → p2 c = .error () →
        verifySupplierData p1 p2 c = createFallbackSupplierInfo c ∧
        (verifySupplierData p1 p2 c).verification_status = .unverified) := by
  have hmap : verifySuppliers p1 p2 candidates =
      candidates.map (verifySupplierData p1 p2) :=
    batchesOf5_flatMap_map _ _
  refine ⟨hmap, by rw [hmap, List.length_map], ?_⟩
  intro c h1 h2
  have hfb : verifySupplierData p1 p2 c = createFallbackSupplierInfo c := by
    rw [verifySupplierData, tryProviders, h1, h2]
  exact ⟨hfb, by rw [hfb]; rfl⟩

/-- Witness for C2: five candidates where candidate #3's enrichment always
raises still produce five suppliers, and the third is the fallback record. -/
theorem verify_batch_isolation_witness :
    (verifySuppliers enrichFailB3 enrichFailB3 batchCands).length = 5 ∧
    verifySupplierData enrichFailB3 enrichFailB3 (batchCands.get ⟨2, by decide⟩) =
      createFallbackSupplierInfo (batchCands.get ⟨2, by decide⟩) := by
  have h := verify_batch_isolation enrichFailB3 enrichFailB3 batchCands
  constructor
  · rw [h.2.1]; rfl
  · exact (h.2.2 (batchCands.get ⟨2, by decide⟩) rfl rfl).1

/-! ## C7: scoring formula and certification monotonicity -/

/-- A non-empty requested location is never contained in an empty supplier
location, and none of the abbreviation pairs can occur in the empty string. -/
theorem locationMatches_empty_left (rl : String) (h : rl ≠ "") :
    locationMatches "" rl = false := by
  cases rl with
  | mk data =>
    cases data with
    | nil => exact absurd rfl h
    | cons c cs =>
      simp [locationMatches, pyLower, strContains, listSub, stateAbbrev]

theorem verificationWeight_nonneg (v : VerificationStatus) :
    0 ≤ verificationWeight v := by
  cases v <;> norm_num [verificationWeight]

theorem specialtyRelevance_nonneg (specialties : List String) (product : String) :
    0 ≤ specialtyRelevance specialties product := by
  unfold specialtyRelevance
  by_cases hc : (pySplit (pyLower product)).toFinset.card = 0
  · simp [hc]
  · simp only [hc, if_false]
    positivity

theorem specialtyRelevance_nil (product : String) :
    specialtyRelevance [] product = 0 := by
  unfold specialtyRelevance
  by_cases hc : (pySplit (pyLower product)).toFinset.card = 0
  · simp [hc]
  · simp [hc, joinSpace, pyLower, pySplit, splitWSAux]

/-- The certification increment of `calculate_score` is monotone in the
number of certifications. -/
theorem certTerm_mono (l1 l2 : List String) (h : l1.length ≤ l2.length) :
    (if l1 ≠ [] then min ((l1.length : ℚ) / 5) 1 * (1/10) else 0) ≤
      (if l2 ≠ [] then min ((l2.length : ℚ) / 5) 1 * (1/10) else 0) := by
  rcases l1 with _ | ⟨a, t1⟩
  · rcases l2 with _ | ⟨b, t2⟩
    · norm_num
    · simp only [ne_eq, reduceCtorEq, not_false_iff, if_true, if_neg]
      have h1 : (0:ℚ) ≤ min (((b :: t2).length : ℚ) / 5) 1 :=
        le_min (by positivity) (by norm_num)
      have := mul_nonneg h1 (by norm_num : (0:ℚ) ≤ 1/10)
      simpa using this
  · have h2 : l2 ≠ [] := by
      cases l2
      · simp at h
      · exact fun hc => by simp at hc
    simp only [ne_eq, reduceCtorEq, not_false_iff, if_true, if_neg h2]
    have hle : ((a :: t1).length : ℚ) / 5 ≤ (l2.length : ℚ) / 5 := by
      have : ((a :: t1).length : ℚ) ≤ (l2.length : ℚ) := by exact_mod_cast h
      linarith
    have := min_le_min hle (le_refl (1:ℚ))
    have h2' : l2 ≠ [] := h2
    simp only [if_pos h2']
    exact mul_le_mul_of_nonneg_right this (by norm_num)

/-- C7: `calculate_score` is exactly the spec's weighted sum — confidence ×
0.40 + status weight × 0.20 + (rating/5) × 0.15 + min(certs/5, 1) × 0.10 +
location bonus 0.10 + specialty overlap × 0.05, clamped to [0, 1] — under the
model invariants (non-negative confidence and rating, a requested location is
a non-empty string); consequently the score lies in [0, 1] and increasing the
certification count (all else fixed) never decreases it. -/
theorem calculateScore_spec (req : SupplierDiscoveryRequest) (s : SupplierInfo)
    (h0 : 0 ≤ s.confidence_score)
    (hr : ∀ r, s.rating = some r → 0 ≤ r)
    (hloc : ∀ rl, req.location = some rl → rl ≠ "") :
    calculateScore req s = specScore req s
    ∧ 0 ≤ calculateScore req s ∧ calculateScore req s ≤ 1
    ∧ ∀ certs2, s.certifications.length ≤ certs2.length →
        calculateScore req s ≤ calculateScore req { s with certifications := certs2 } := by
  have e3 : (match s.rating with
        | some r => if r ≠ 0 then (r / 5) * (3/20) else 0
        | none => (0:ℚ)) =
      (match s.rating with | some r => (r / 5) * (3/20) | none => (0:ℚ)) := by
    rcases s.rating with _ | r
    · rfl
    · by_cases hr0 : r = 0
      · subst hr0; norm_num
      · simp [hr0]
  have e4 : (if s.certifications ≠ [] then
        min ((s.certifications.length : ℚ) / 5) 1 * (1/10) else 0) =
      min ((s.certifications.length : ℚ) / 5) 1 * (1/10) := by
    rcases hc : s.certifications with _ | ⟨a, t⟩
    · norm_num
    · simp
  have e5 : (if locationBonusOk req s then (1/10 : ℚ) else 0) =
      (match req.location with
        | some rl => if locationMatches s.location rl then (1/10 : ℚ) else 0
        | none => (0:ℚ)) := by
    rcases hrq : req.location with _ | rl
    · simp [locationBonusOk, hrq]
    · have hne := hloc rl hrq
      by_cases hsl : s.location = ""
      · rw [hsl]
        simp [locationBonusOk, hrq, hsl, locationMatches_empty_left rl hne]
      · simp [locationBonusOk, hrq, hsl, hne]
  have e6 : (if s.specialties ≠ [] then
        specialtyRelevance s.specialties req.product * (1/20) else 0) =
      specialtyRelevance s.specialties req.product * (1/20) := by
    rcases hs : s.specialties with _ | ⟨a, t⟩
    · rw [specialtyRelevance_nil]; norm_num
    · simp
  have hraw : 0 ≤ s.confidence_score * (2/5)
      + verificationWeight s.verification_status * (1/5)
      + (match s.rating with
          | some r => if r ≠ 0 then (r / 5) * (3/20) else 0
          | none => (0:ℚ))
      + (if s.certifications ≠ [] then
          min ((s.certifications.length : ℚ) / 5) 1 * (1/10) else 0)
      + (if locationBonusOk req s then (1/10 : ℚ) else 0)
      + (if s.specialties ≠ [] then
          specialtyRelevance s.specialties req.product * (1/20) else 0) := by
    have t1 : 0 ≤ s.confidence_score * (2/5) := by
      apply mul_nonneg h0; norm_num
    have t2 : 0 ≤ verificationWeight s.verification_status * (1/5) := by
      apply mul_nonneg (verificationWeight_nonneg _); norm_num
    have t3 : 0 ≤ (match s.rating with
        | some r => if r ≠ 0 then (r / 5) * (3/20) else 0
        | none => (0:ℚ)) := by
      rcases hrat : s.rating with _ | r
      · exact le_refl 0
      · have hr' := hr r hrat
        by_cases hr0 : r = 0
        · simp [hr0]
        · simp only [hr0, ne_eq, not_false_iff, if_true]
          positivity
    have t4 : 0 ≤ (if s.certifications ≠ [] then
        min ((s.certifications.length : ℚ) / 5) 1 * (1/10) else 0) := by
      rcases s.certifications with _ | ⟨a, t⟩
      · norm_num
      · simp only [ne_eq, reduceCtorEq, not_false_iff, if_true]
        have h1 : (0:ℚ) ≤ min (((a :: t).length : ℚ) / 5) 1 :=
          le_min (by positivity) (by norm_num)
        have := mul_nonneg h1 (by norm_num : (0:ℚ) ≤ 1/10)
        simpa using this
    have t5 : 0 ≤ (if locationBonusOk req s then (1/10 : ℚ) else 0) := by
      split <;> norm_num
    have t6 : 0 ≤ (if s.specialties ≠ [] then
        specialtyRelevance s.specialties req.product * (1/20) else 0) := by
      split
      · exact mul_nonneg (specialtyRelevance_nonneg _ _) (by norm_num)
      · exact le_refl 0
    linarith
  have heq : calculateScore req s = specScore req s := by
    unfold calculateScore specScore
    have n1 : (0.40 : ℚ) = 2/5 := by norm_num
    have n2 : (0.20 : ℚ) = 1/5 := by norm_num
    have n3 : (0.15 : ℚ) = 3/20 := by norm_num
    have n4 : (0.10 : ℚ) = 1/10 := by norm_num
    have n5 : (0.05 : ℚ) = 1/20 := by norm_num
    rw [n1, n2, n3, n4, n5, e3, e4, e5, e6]
    dsimp only
    rw [max_eq_left]
    rw [← e3, ← e4, ← e5, ← e6]
    exact hraw
  refine ⟨heq, ?_, ?_, ?_⟩
  · unfold calculateScore
    exact le_min hraw (by norm_num)
  · exact min_le_right _ _
  · intro certs2 hlen
    unfold calculateScore
    apply min_le_min _ (le_refl 1)
    have hmono := certTerm_mono s.certifications certs2 hlen
    have hlb : locationBonusOk req { s with certifications := certs2 } =
        locationBonusOk req s := rfl
    dsimp only
    rw [hlb]
    linarith

/-- Witness for C7 at a concrete request and supplier. -/
theorem calculateScore_spec_witness :
    calculateScore reqTexas supplierSentinel = specScore reqTexas supplierSentinel ∧
    0 ≤ calculateScore reqTexas supplierSentinel ∧
    calculateScore reqTexas supplierSentinel ≤ 1 := by
  have h := calculateScore_spec reqTexas supplierSentinel
    (by norm_num [supplierSentinel])
    (by intro r hrat; simp [supplierSentinel] at hrat)
    (by intro rl hrl; simp [reqTexas] at hrl; subst hrl; decide)
  exact ⟨h.1, h.2.1, h.2.2.1⟩

/-! ## C5: the location filter and the "Location not specified" sentinel -/

/-- C5 (amended): with a non-empty requested location, `_apply_filters` drops
any supplier whose non-empty location string fails `_location_matches`; only
a supplier whose location is the *empty* string bypasses the location clause
(Python truthiness) — the sentinel "Location not specified" is an ordinary
non-empty string and is subject to matching like any other. -/
theorem locationFilter_empty_passthrough (req : SupplierDiscoveryRequest)
    (s : SupplierInfo) (rl : String) (h : req.location = some rl) (hrl : rl ≠ "") :
    (s.location ≠ "" → locationMatches s.location rl = false →
      passesFilters req s = false)
    ∧ (s.location = "" → passesFilters req s =
        (ratingFilterOk req s && certFilterOk req s && requirementsFilterOk req s)) := by
  constructor
  · intro hsl hmatch
    have hlf : locationFilterOk req s = false := by
      rw [locationFilterOk, h]
      simp [hrl, hsl, hmatch]
    simp [passesFilters, hlf]
  · intro hsl
    have hlf : locationFilterOk req s = true := by
      rw [locationFilterOk, h]
      simp [hsl]
    simp [passesFilters, hlf]

/-- C5 counterexample: the sentinel-located supplier is dropped (not passed
through) by `_apply_filters` when location "Texas" is requested — the filter
output is empty, refuting the claimed sentinel pass-through. -/
theorem locationFilter_sentinel_dropped :
    applyFilters reqTexas [supplierSentinel] = [] ∧
    supplierSentinel.location = "Location not specified" := by
  constructor
  · have hm : locationMatches "Location not specified" "Texas" = false := by decide
    have hp : passesFilters reqTexas supplierSentinel = false := by
      have hlf : locationFilterOk reqTexas supplierSentinel = false := by
        rw [locationFilterOk]
        show (match some "Texas" with
          | some rl => if rl ≠ "" && supplierSentinel.location ≠ "" then
              locationMatches supplierSentinel.location rl else true
          | none => true) = false
        simpa [supplierSentinel] using hm
      simp [passesFilters, hlf]
    simp [applyFilters, hp]
  · rfl

/-- Witness for C5 (amended) at the sentinel supplier and request "Texas". -/
theorem locationFilter_empty_passthrough_witness :
    passesFilters reqTexas supplierSentinel = false :=
  (locationFilter_empty_passthrough reqTexas supplierSentinel "Texas" rfl
    (by decide)).1 (by decide) (by decide)

/-! ## C9: search fan-out failure absorption -/

/-- A fan-out over queries that all yield nothing produces nothing. -/
theorem flatMap_eq_nil_of_forall_nil {α β : Type} (l : List α)
    (f : α → List β) (h : ∀ a, f a = []) : l.flatMap f = [] := by
  induction l with
  | nil => rfl
  | cons a t ih => rw [List.flatMap_cons, h a, ih, List.nil_append]

/-- C9: a provider failure on one query variant is absorbed locally — the
fan-out behaves exactly as if that variant had returned zero results, and the
remaining variants still contribute; when every variant fails, the fan-out
returns `[]` instead of raising. -/
theorem searchSuppliers_failure_absorbed
    (provider : String → Except Unit (List RawHit)) (query : String)
    (location : Option String) (maxResults : ℕ) :
    searchSuppliers provider query location maxResults =
      searchSuppliers
        (fun q => match provider q with | .error _ => .ok [] | .ok hits => .ok hits)
        query location maxResults
    ∧ ((∀ q, provider q = .error ()) →
        searchSuppliers provider query location maxResults = []) := by
  constructor
  · have hexec : executeSearch provider = executeSearch
        (fun q => match provider q with | .error _ => .ok [] | .ok hits => .ok hits) := by
      funext q
      unfold executeSearch
      cases hpq : provider q <;> simp [hpq]
    unfold searchSuppliers
    rw [hexec]
  · intro hfail
    have hexec : ∀ q, executeSearch provider q = [] := by
      intro q
      unfold executeSearch
      rw [hfail q]
    unfold searchSuppliers
    rw [flatMap_eq_nil_of_forall_nil _ _ hexec]
    show List.take maxResults
      (rankResults (filterSupplierResults (deduplicateResults [])) query) = []
    have h1 : deduplicateResults [] = [] := rfl
    have h2 : filterSupplierResults [] = [] := rfl
    have h3 : rankResults [] query = [] := rfl
    rw [h1, h2, h3, List.take_nil]

/-- Witness for C9: a provider raising on every variant yields the empty
result list. -/
theorem searchSuppliers_failure_absorbed_witness :
    searchSuppliers (fun _ => .error ()) "industrial steel" (some "Texas") 5 = [] :=
  (searchSuppliers_failure_absorbed (fun _ => .error ()) "industrial steel"
    (some "Texas") 5).2 (fun _ => rfl)

/-! ## C1: the fallback record through the full ranking pipeline -/

/-- Evaluation of stages 3–5 for one candidate whose enrichment fails, under
a request with no active filters: the verification stage emits exactly the
fallback record (confidence 0.3, unverified), the filters keep it, and the
ranking stage *overwrites* its confidence with the recomputed score
`0.3·0.4 + 0.5·0.2 = 0.22`. -/
theorem fallbackPipeline (p1 p2 : Candidate → Except Unit VerifiedData)
    (req : SupplierDiscoveryRequest) (c : Candidate)
    (hp1 : p1 c = .error ()) (hp2 : p2 c = .error ())
    (hloc : req.location = none) (hmin : req.min_rating = none)
    (hreq : req.requirements = []) (hcert : req.certifications = [])
    (hmax : 1 ≤ req.max_results) :
    verifySuppliers p1 p2 [c] = [createFallbackSupplierInfo c]
    ∧ discoverFromCandidates p1 p2 req [c] =
        [{ createFallbackSupplierInfo c with confidence_score := 11/50 }] := by
  have hfb : verifySupplierData p1 p2 c = createFallbackSupplierInfo c := by
    rw [verifySupplierData, tryProviders, hp1, hp2]
  have hverify : verifySuppliers p1 p2 [c] = [createFallbackSupplierInfo c] := by
    rw [verifySuppliers, batchesOf5_flatMap_map, List.map_cons, List.map_nil, hfb]
  refine ⟨hverify, ?_⟩
  have hpass : passesFilters req (createFallbackSupplierInfo c) = true := by
    simp [passesFilters, locationFilterOk, ratingFilterOk, certFilterOk,
      requirementsFilterOk, hloc, hmin, hreq, hcert, createFallbackSupplierInfo]
  have hfilter : applyFilters req [createFallbackSupplierInfo c] =
      [createFallbackSupplierInfo c] := by
    simp [applyFilters, hpass]
  have hscore : calculateScore req (createFallbackSupplierInfo c) = 11/50 := by
    rw [calculateScore]
    norm_num [createFallbackSupplierInfo, verificationWeight, locationBonusOk, hloc]
  have hrank : rankSuppliers req [createFallbackSupplierInfo c] =
      [{ createFallbackSupplierInfo c with confidence_score := 11/50 }] := by
    rw [rankSuppliers, List.map_cons, List.map_nil, hscore]
    rfl
  rw [discoverFromCandidates, hverify, hfilter, hrank]
  cases hm : req.max_results with
  | zero => rw [hm] at hmax; omega
  | succ n => simp

/-- C1 counterexample: with enrichment forced to fail on the single surviving
candidate, the final ranked list has length 1 but its `confidence_score` is
0.22 (= 11/50), not the fallback's 0.3 — the 0.3 does not survive ranking. -/
theorem fallback_score_not_final_counterexample :
    (discoverFromCandidates enrichFail enrichFail reqPlain [candAcme]).map
        (fun s => s.confidence_score) = [11/50]
    ∧ ¬ ((discoverFromCandidates enrichFail enrichFail reqPlain [candAcme]).map
        (fun s => s.confidence_score) = [3/10]) := by
  have h := fallbackPipeline enrichFail enrichFail reqPlain candAcme rfl rfl rfl rfl
    rfl rfl (by norm_num [reqPlain])
  constructor
  · rw [h.2]; rfl
  · rw [h.2]
    intro hcontra
    simp only [List.map_cons, List.map_nil, List.cons.injEq, and_true] at hcontra
    norm_num at hcontra

/-- C1 (amended): with enrichment forced to fail on the single surviving
candidate, the verification stage yields one `VerifiedSupplier` with
`confidence_score = 0.3` and `verification_status = unverified`, and the
final ranked list has length 1 with status still unverified — but its
`confidence_score` is recomputed by the ranking stage to
`0.22 = 0.3·0.4 + 0.5·0.2`; the deterministic fallback value 0.3 does not
survive into the final result. -/
theorem orchestrator_fallback_final (p1 p2 : Candidate → Except Unit VerifiedData)
    (req : SupplierDiscoveryRequest) (c : Candidate)
    (hp1 : p1 c = .error ()) (hp2 : p2 c = .error ())
    (hloc : req.location = none) (hmin : req.min_rating = none)
    (hreq : req.requirements = []) (hcert : req.certifications = [])
    (hmax : 1 ≤ req.max_results) :
    verifySuppliers p1 p2 [c] = [createFallbackSupplierInfo c]
    ∧ (createFallbackSupplierInfo c).confidence_score = 3/10
    ∧ (createFallbackSupplierInfo c).verification_status = .unverified
    ∧ (discoverFromCandidates p1 p2 req [c]).length = 1
    ∧ (discoverFromCandidates p1 p2 req [c]).map (fun s => s.verification_status) =
        [.unverified]
    ∧ (discoverFromCandidates p1 p2 req [c]).map (fun s => s.confidence_score) =
        [11/50] := by
  have h := fallbackPipeline p1 p2 req c hp1 hp2 hloc hmin hreq hcert hmax
  refine ⟨h.1, rfl, rfl, ?_, ?_, ?_⟩ <;> rw [h.2] <;> rfl

/-- Witness for C1 (amended) at the concrete candidate and request. -/
theorem orchestrator_fallback_final_witness :
    verifySuppliers enrichFail enrichFail [candAcme] =
      [createFallbackSupplierInfo candAcme]
    ∧ (discoverFromCandidates enrichFail enrichFail reqPlain [candAcme]).length = 1 := by
  have h := orchestrator_fallback_final enrichFail enrichFail reqPlain candAcme rfl rfl
    rfl rfl rfl rfl (by norm_num [reqPlain])
  exact ⟨h.1, h.2.2.2.1⟩

/-! ## C3: sliding-window rate limiter bound -/

/-- Every admitted timestamp of a run is one of the query times. -/
theorem admittedTimes_subset (maxRequests : ℕ) (window : ℚ) :
    ∀ (qs s : List ℚ) (a : ℚ), a ∈ admittedTimes maxRequests window s qs → a ∈ qs := by
  intro qs
  induction qs with
  | nil => intro s a ha; simp [admittedTimes] at ha
  | cons q qs ih =>
    intro s a ha
    simp only [admittedTimes] at ha
    rcases List.mem_append.mp ha with h1 | h2
    · by_cases hb : (slidingAllowed maxRequests window q s).1 = true
      · rw [if_pos hb] at h1
        have : a = q := by simpa using h1
        rw [this]
        exact List.mem_cons_self q qs
      · rw [if_neg hb] at h1
        simp at h1
    · exact List.mem_cons_of_mem q (ih _ a h2)

/-- `slidingClean` unfolded to its `dropWhile`. -/
theorem slidingClean_eq (window now : ℚ) (s : List ℚ) :
    slidingClean window now s = s.dropWhile (fun t => decide (t < now - window)) := rfl

/-- Core invariant behind C3: starting from any per-key deque `s` that is
time-ordered, older than all query times, and already within the admission
bound on every trailing window, the admitted events of a run keep every
trailing window `[T - window, T]` at or below `max_requests` occupancy. -/
theorem sliding_window_bound_aux (maxRequests : ℕ) (window : ℚ) :
    ∀ (qs s : List ℚ), s.Pairwise (· ≤ ·) → qs.Pairwise (· ≤ ·) →
      (∀ x ∈ s, ∀ q ∈ qs, x ≤ q) →
      (∀ T', ((s.filter (inWindow window T')).length ≤ maxRequests)) →
      ∀ T, (((s ++ admittedTimes maxRequests window s qs).filter
        (inWindow window T)).length ≤ maxRequests) := by
  intro qs
  induction qs with
  | nil =>
    intro s _ _ _ hbase T
    simp only [admittedTimes, List.append_nil]
    exact hbase T
  | cons q qs ih =>
    intro s hs hqs hcross hbase T
    have hsplit : s.takeWhile (fun t => decide (t < q - window)) ++
        slidingClean window q s = s := by
      rw [slidingClean_eq]
      exact List.takeWhile_append_dropWhile _ _
    have hs'sub : List.Sublist (slidingClean window q s) s := by
      rw [slidingClean_eq]
      exact List.dropWhile_sublist _
    have hs' : (slidingClean window q s).Pairwise (· ≤ ·) := hs.sublist hs'sub
    have hd : ∀ d ∈ s.takeWhile (fun t => decide (t < q - window)), d < q - window := by
      intro d hdm
      have := List.mem_takeWhile_imp hdm
      simpa using this
    have hq_le : ∀ r ∈ qs, q ≤ r := (List.pairwise_cons.mp hqs).1
    have hqs' : qs.Pairwise (· ≤ ·) := (List.pairwise_cons.mp hqs).2
    have hsq : ∀ x ∈ s, x ≤ q := fun x hx => hcross x hx q (List.mem_cons_self q qs)
    have hcross' : ∀ x ∈ slidingClean window q s, ∀ r ∈ qs, x ≤ r := fun x hx r hr =>
      hcross x (hs'sub.subset hx) r (List.mem_cons_of_mem q hr)
    by_cases hfull : maxRequests ≤ (slidingClean window q s).length
    · -- the check at `q` is rejected: the deque is only cleaned
      have hall : slidingAllowed maxRequests window q s =
          (false, slidingClean window q s) := by
        rw [slidingAllowed_eq, if_pos hfull]
      have hadm : admittedTimes maxRequests window s (q :: qs) =
          admittedTimes maxRequests window (slidingClean window q s) qs := by
        simp [admittedTimes, hall]
      have hbase' : ∀ T',
          (((slidingClean window q s).filter (inWindow window T')).length
            ≤ maxRequests) := by
        intro T'
        exact le_trans (hs'sub.filter _).length_le (hbase T')
      have IH := ih (slidingClean window q s) hs' hqs' hcross' hbase'
      rw [hadm]
      set A := admittedTimes maxRequests window (slidingClean window q s) qs with hAdef
      by_cases hdd : ∃ d ∈ s.takeWhile (fun t => decide (t < q - window)),
          inWindow window T d = true
      · obtain ⟨d, hdm, hdin⟩ := hdd
        have hTq : T < q := by
          have h0 := hdin
          unfold inWindow at h0
          simp at h0
          have h2 := hd d hdm
          linarith [h0.1]
        have hA : List.filter (inWindow window T) A = [] := by
          rw [List.filter_eq_nil_iff]
          intro a ha
          have haq : a ∈ qs := admittedTimes_subset maxRequests window qs _ a
            (by rw [← hAdef]; exact ha)
          have hqa : q ≤ a := hq_le a haq
          have hnot : ¬ (a ≤ T) := by linarith
          simp [inWindow, hnot]
        rw [← hsplit, List.append_assoc, List.filter_append, List.length_append,
          List.filter_append, List.length_append, hA]
        have hb := hbase T
        rw [← hsplit, List.filter_append, List.length_append] at hb
        simp only [List.length_nil]
        omega
      · have hsdf : List.filter (inWindow window T)
            (s.takeWhile (fun t => decide (t < q - window))) = [] := by
          rw [List.filter_eq_nil_iff]
          intro a ha hcon
          exact hdd ⟨a, ha, hcon⟩
        rw [← hsplit, List.append_assoc, List.filter_append, hsdf]
        simpa using IH T
    · -- the check at `q` is admitted: `q` is appended to the cleaned deque
      have hall : slidingAllowed maxRequests window q s =
          (true, slidingClean window q s ++ [q]) := by
        rw [slidingAllowed_eq, if_neg hfull]
      have hadm : admittedTimes maxRequests window s (q :: qs) =
          q :: admittedTimes maxRequests window (slidingClean window q s ++ [q]) qs := by
        simp [admittedTimes, hall]
      have hs'' : (slidingClean window q s ++ [q]).Pairwise (· ≤ ·) := by
        rw [List.pairwise_append]
        refine ⟨hs', List.pairwise_singleton _ _, ?_⟩
        intro x hx y hy
        have hyq : y = q := by simpa using hy
        rw [hyq]
        exact hsq x (hs'sub.subset hx)
      have hcross'' : ∀ x ∈ slidingClean window q s ++ [q], ∀ r ∈ qs, x ≤ r := by
        intro x hx r hr
        rcases List.mem_append.mp hx with h1 | h2
        · exact hcross' x h1 r hr
        · have hxq : x = q := by simpa using h2
          rw [hxq]
          exact hq_le r hr
      have hbase'' : ∀ T',
          (((slidingClean window q s ++ [q]).filter (inWindow window T')).length
            ≤ maxRequests) := by
        intro T'
        have h1 := List.length_filter_le (inWindow window T')
          (slidingClean window q s ++ [q])
        have h2 : (slidingClean window q s ++ [q]).length =
            (slidingClean window q s).length + 1 := by simp
        omega
      have IH := ih (slidingClean window q s ++ [q]) hs'' hqs' hcross'' hbase''
      rw [hadm]
      set B := admittedTimes maxRequests window (slidingClean window q s ++ [q]) qs
        with hBdef
      have hres : s ++ q :: B =
          s.takeWhile (fun t => decide (t < q - window)) ++
            ((slidingClean window q s ++ [q]) ++ B) := by
        conv_lhs => rw [← hsplit]
        simp [List.append_assoc]
      rw [hres, List.filter_append, List.length_append]
      by_cases hdd : ∃ d ∈ s.takeWhile (fun t => decide (t < q - window)),
          inWindow window T d = true
      · obtain ⟨d, hdm, hdin⟩ := hdd
        have hTq : T < q := by
          have h0 := hdin
          unfold inWindow at h0
          simp at h0
          have h2 := hd d hdm
          linarith [h0.1]
        have hqf : inWindow window T q = false := by
          have hnot : ¬ (q ≤ T) := by linarith
          simp [inWindow, hnot]
        have hB : List.filter (inWindow window T) B = [] := by
          rw [List.filter_eq_nil_iff]
          intro a ha
          have haq : a ∈ qs := admittedTimes_subset maxRequests window qs _ a
            (by rw [← hBdef]; exact ha)
          have hqa : q ≤ a := hq_le a haq
          have hnot : ¬ (a ≤ T) := by linarith
          simp [inWindow, hnot]
        have h2 : (List.filter (inWindow window T)
            ((slidingClean window q s ++ [q]) ++ B)).length =
            (List.filter (inWindow window T) (slidingClean window q s)).length := by
          rw [List.filter_append, List.length_append, hB,
            List.filter_append, List.length_append]
          simp [hqf]
        rw [h2]
        have hb := hbase T
        rw [← hsplit, List.filter_append, List.length_append] at hb
        omega
      · have hsdf : List.filter (inWindow window T)
            (s.takeWhile (fun t => decide (t < q - window))) = [] := by
          rw [List.filter_eq_nil_iff]
          intro a ha hcon
          exact hdd ⟨a, ha, hcon⟩
        rw [hsdf]
        simpa using IH T

/-- C3: with `max_requests = 5`, `window = 60`, of 6 same-instant checks for
one key exactly the first 5 are admitted and the 6th is rejected with a
reported reset time of 60 > 0; in general (any limit, any window, any
time-ordered check sequence on a fresh key) the number of admitted events in
any trailing window `[T - window, T]` never exceeds `max_requests`. -/
theorem sliding_window_limit (maxRequests : ℕ) (window : ℚ) (qs : List ℚ)
    (hqs : qs.Pairwise (· ≤ ·)) (T : ℚ) :
    ((slidingRun 5 60 [] (List.replicate 6 0)).1 =
        [true, true, true, true, true, false]
      ∧ getResetTime 60 0 (slidingRun 5 60 [] (List.replicate 6 0)).2 = some 60
      ∧ (0:ℚ) < 60)
    ∧ ((admittedTimes maxRequests window [] qs).filter (inWindow window T)).length
        ≤ maxRequests := by
  constructor
  · have a1 : slidingAllowed 5 60 0 ([] : List ℚ) = (true, [0]) := by
      rw [slidingAllowed_eq]
      norm_num [slidingClean_eq]
    have a2 : slidingAllowed 5 60 0 [(0:ℚ)] = (true, [0, 0]) := by
      rw [slidingAllowed_eq]
      norm_num [slidingClean_eq, List.dropWhile]
    have a3 : slidingAllowed 5 60 0 [(0:ℚ), 0] = (true, [0, 0, 0]) := by
      rw [slidingAllowed_eq]
      norm_num [slidingClean_eq, List.dropWhile]
    have a4 : slidingAllowed 5 60 0 [(0:ℚ), 0, 0] = (true, [0, 0, 0, 0]) := by
      rw [slidingAllowed_eq]
      norm_num [slidingClean_eq, List.dropWhile]
    have a5 : slidingAllowed 5 60 0 [(0:ℚ), 0, 0, 0] = (true, [0, 0, 0, 0, 0]) := by
      rw [slidingAllowed_eq]
      norm_num [slidingClean_eq, List.dropWhile]
    have a6 : slidingAllowed 5 60 0 [(0:ℚ), 0, 0, 0, 0] =
        (false, [0, 0, 0, 0, 0]) := by
      rw [slidingAllowed_eq]
      norm_num [slidingClean_eq, List.dropWhile]
    have hrep : List.replicate 6 (0:ℚ) = [0, 0, 0, 0, 0, 0] := rfl
    have hrun : slidingRun 5 60 [] (List.replicate 6 (0:ℚ)) =
        ([true, true, true, true, true, false], [0, 0, 0, 0, 0]) := by
      rw [hrep]
      simp [slidingRun, a1, a2, a3, a4, a5, a6]
    refine ⟨by rw [hrun], ?_, by norm_num⟩
    rw [hrun]
    show getResetTime 60 0 [0, 0, 0, 0, 0] = some 60
    rw [getResetTime]
    norm_num
  · have h := sliding_window_bound_aux maxRequests window qs []
      (by simp) hqs (by simp) (by simp)
    simpa using h T

/-- Witness for C3 at six same-instant checks (limit 5, window 60). -/
theorem sliding_window_limit_witness :
    (slidingRun 5 60 [] (List.replicate 6 0)).1 =
        [true, true, true, true, true, false]
    ∧ ((admittedTimes 5 60 [] [0, 0, 0, 0, 0, 0]).filter (inWindow 60 0)).length
        ≤ 5 := by
  have h := sliding_window_limit 5 60 [0, 0, 0, 0, 0, 0] (by simp) 0
  exact ⟨h.1.1, h.2⟩
